import Mathlib

/-!
Verification development for the ai-briefings scripts.

The two Python sources are shallowly embedded here:
  * `scripts/md_to_html.py`   — the markdown-to-HTML converter (`markdown_to_html`,
    `convert_table`, and the CLI `main`);
  * `scripts/generate_index.py` — the index page builder (`generate_index`).

Text is modelled as `List Char` (`MText`).  Python's regex substitutions are
embedded as explicit scanners with the exact semantics of the patterns used by
the source (left-to-right scanning, lazy or greedy groups as the pattern says,
`.` never matching a newline, `re.MULTILINE` patterns applied per line).
Filesystem reads/writes and process exit are modelled by passing the directory
listing / file association list and returning the exit code and printed lines.
-/

/-- Text, modelled as a list of characters (Python `str`). -/
abbrev MText := List Char

/-- Test `startsWithL pat s`: does `s` begin with `pat` (Python `str.startswith`). -/
def startsWithL : MText → MText → Bool
  | [], _ => true
  | _ :: _, [] => false
  | p :: ps, c :: cs => p = c && startsWithL ps cs

/-- Test whether `s` ends with `pat`. -/
def endsWithL (pat s : MText) : Bool :=
  startsWithL pat.reverse s.reverse

/-- Test whether `pat` occurs as a contiguous substring of `s` (Python `pat in s`). -/
def containsSub (pat : MText) : MText → Bool
  | [] => startsWithL pat []
  | c :: cs => startsWithL pat (c :: cs) || containsSub pat cs

/-- Python `str.split(sep)` for a one-character separator. -/
def splitOnChar (sep : Char) : MText → List MText
  | [] => [[]]
  | c :: cs =>
    match splitOnChar sep cs with
    | [] => [[]]
    | l :: ls => if c = sep then [] :: l :: ls else (c :: l) :: ls

/-- Python `sep.join(parts)`. -/
def joinWith (sep : MText) : List MText → MText
  | [] => []
  | [t] => t
  | t :: ts => t ++ sep ++ joinWith sep ts

/-- Split a text into its lines (Python `text.split('\n')`). -/
def splitLines (t : MText) : List MText := splitOnChar '\n' t

/-- Join lines back with newlines (Python `'\n'.join(lines)`). -/
def joinLines (ls : List MText) : MText := joinWith ['\n'] ls

/-- Python whitespace (the set matched by `\s` in `re` and stripped by
`str.strip()` on `str` values: ASCII whitespace plus the Unicode space
characters). -/
def pyIsSpace (c : Char) : Bool :=
  c = ' ' || c = '\t' || c = '\n' || c = '\r' || c = '\x0b' || c = '\x0c' ||
  c = '\x1c' || c = '\x1d' || c = '\x1e' || c = '\x1f' || c.toNat = 0x85 || c.toNat = 0xa0 ||
  c.toNat = 0x1680 || (0x2000 ≤ c.toNat && c.toNat ≤ 0x200a) ||
  c.toNat = 0x2028 || c.toNat = 0x2029 || c.toNat = 0x202f || c.toNat = 0x205f || c.toNat = 0x3000

/-- Python `str.strip()`. -/
def pyStrip (s : MText) : MText :=
  ((s.dropWhile pyIsSpace).reverse.dropWhile pyIsSpace).reverse

/-- Number of leading whitespace characters. -/
def countLeadingWs : MText → Nat
  | [] => 0
  | c :: cs => if pyIsSpace c then countLeadingWs cs + 1 else 0

/-- Occurrences of a character in a line. -/
def countChar (c : Char) : MText → Nat
  | [] => 0
  | x :: xs => (if x = c then 1 else 0) + countChar c xs

/-- Count of leading newline characters. -/
def countLeadingNl : MText → Nat
  | [] => 0
  | c :: cs => if c = '\n' then countLeadingNl cs + 1 else 0

/-- Match attempt for the `re.MULTILINE`-anchored patterns `^PRE\s+(.+)$` used
by the source (`^#\s+(.+)$`, `^##\s+(.+)$`, `^###\s+(.+)$`, `^\>\s+(.+)$`,
`^-\s+(.+)$`) at a line-start position whose suffix is `s`.  `\s` matches
newlines, so the greedy whitespace run may cross line breaks; the group `.+`
is the rest of the line on which the run ends.  When the run reaches the end
of the text, `\s+` backtracks: the group becomes the last non-newline
whitespace character of the run, provided at least one run character (the
first) stays with `\s+`.  Returns `(group, rest-after-match)`; the `$` always
lands at a line end, so `rest` is empty or starts with a newline. -/
def matchPrefAt (pre s : MText) : Option (MText × MText) :=
  if startsWithL pre s then
    let s2 := s.drop pre.length
    let k := countLeadingWs s2
    if k = 0 then none
    else if k < s2.length then
      some ((s2.drop k).takeWhile (fun c => ¬ c = '\n'),
            (s2.drop k).dropWhile (fun c => ¬ c = '\n'))
    else
      let m := countLeadingNl s2.reverse
      if k ≤ m + 1 then none
      else some ((s2.drop (k - 1 - m)).take 1, s2.drop (k - m))
  else none

/-- Fuelled scanner for
`re.sub(r'^PRE\s+(.+)$', r'TAGO\1TAGC', text, flags=re.MULTILINE)`:
the boolean records whether the current position is a line start (position 0
or just after a newline); matches are attempted only there, and scanning
resumes after the whole match.  Each step consumes at least one character,
so fuel `text.length` suffices. -/
def prefSubGo (pre tagO tagC : MText) : Nat → Bool → MText → MText
  | 0, _, s => s
  | _ + 1, _, [] => []
  | fuel + 1, atStart, c :: cs =>
    if atStart then
      match matchPrefAt pre (c :: cs) with
      | some (g, rest) => tagO ++ g ++ tagC ++ prefSubGo pre tagO tagC fuel false rest
      | none => c :: prefSubGo pre tagO tagC fuel (c = '\n') cs
    else c :: prefSubGo pre tagO tagC fuel (c = '\n') cs

/-- The `re.sub` of an anchored `^PRE\s+(.+)$` pattern over the whole text. -/
def prefSub (pre tagO tagC s : MText) : MText :=
  prefSubGo pre tagO tagC s.length true s

/-- Fuelled scanner for `re.search(r'^PRE\s+(.+)$', text, re.MULTILINE)`:
the group of the leftmost match, whose start must be a line start. -/
def prefSearchGo (pre : MText) : Nat → Bool → MText → Option MText
  | 0, _, _ => none
  | _ + 1, _, [] => none
  | fuel + 1, atStart, c :: cs =>
    if atStart then
      match matchPrefAt pre (c :: cs) with
      | some (g, _) => some g
      | none => prefSearchGo pre fuel (c = '\n') cs
    else prefSearchGo pre fuel (c = '\n') cs

/-- The suffixes of `t` that start just after a newline (the non-initial
line-start positions, in order). -/
def lineStartSuffixes : MText → List MText
  | [] => []
  | c :: cs => if c = '\n' then cs :: lineStartSuffixes cs else lineStartSuffixes cs

/-- Apply a per-line substitution to a whole text.  This is exactly a
`re.sub(..., flags=re.MULTILINE)` for a `^...$`-anchored pattern that cannot
match a newline anywhere (such as `^---+$`), since such a pattern can only
match entire single lines and no replacement introduces a newline. -/
def mapLines (f : MText → MText) (t : MText) : MText :=
  joinLines ((splitLines t).map f)

/-- Lazy-group search used for the symmetric inline patterns
(`\*\*\*(.+?)\*\*\*`, `\*\*(.+?)\*\*`, `\*(.+?)\*`, as well as the
`(.+?)\)` tail of the link pattern and the backtick code-span pattern):
find the shortest non-empty group `g` (whose characters are not newlines,
since `.` does not match `\n`) such that the input is `g ++ d ++ rest`.
Returns `(g, rest)`. -/
def findDelimSplit (d : MText) : MText → Option (MText × MText)
  | [] => none
  | c :: cs =>
    if c = '\n' then none
    else if startsWithL d cs then some ([c], cs.drop d.length)
    else
      match findDelimSplit d cs with
      | some (g, r) => some (c :: g, r)
      | none => none

/-- Fuelled scanner for `re.sub(d ++ '(.+?)' ++ d, tagO ++ '\1' ++ tagC, s)`:
scan left to right; at each position where the delimiter `d` starts, match the
shortest non-empty group terminated by `d` again, emit the replacement and
continue after the match (replacements are not rescanned).  Each step consumes
at least one character of the remaining text, so fuel `s.length` suffices;
with fuel `0` the remaining text is returned unchanged. -/
def subDelimGo (d tagO tagC : MText) : Nat → MText → MText
  | 0, s => s
  | _ + 1, [] => []
  | fuel + 1, c :: cs =>
    if startsWithL d (c :: cs) then
      match findDelimSplit d ((c :: cs).drop d.length) with
      | some (g, rest) => tagO ++ g ++ tagC ++ subDelimGo d tagO tagC fuel rest
      | none => c :: subDelimGo d tagO tagC fuel cs
    else c :: subDelimGo d tagO tagC fuel cs

/-- The `re.sub` for a symmetric lazy-group delimiter pattern. -/
def subDelim (d tagO tagC : MText) (s : MText) : MText :=
  subDelimGo d tagO tagC s.length s

/-- Backtick character (used by the inline-code pattern). -/
def backtick : Char := Char.ofNat 96

/-- Search for the link pattern `\[(.+?)\]\((.+?)\)` after an opening `[`:
the lazy group `g1` grows until a `](` is found after which the lazy group
`g2` terminated by `)` also succeeds; on failure of the tail, `g1` keeps
growing (regex backtracking).  Neither group may contain a newline.
Returns `(g1, g2, rest)`. -/
def findLinkSplit : MText → Option (MText × MText × MText)
  | [] => none
  | c :: cs =>
    if c = '\n' then none
    else
      match
        (if startsWithL "](".data cs then
          match findDelimSplit [')'] (cs.drop 2) with
          | some (g2, r) => some (g2, r)
          | none => none
        else none) with
      | some (g2, r) => some ([c], g2, r)
      | none =>
        match findLinkSplit cs with
        | some (g1, g2, r) => some (c :: g1, g2, r)
        | none => none

/-- Fuelled scanner for `re.sub(r'\[(.+?)\]\((.+?)\)', r'<a href="\2">\1</a>', s)`. -/
def subLinksGo : Nat → MText → MText
  | 0, s => s
  | _ + 1, [] => []
  | fuel + 1, c :: cs =>
    if c = '[' then
      match findLinkSplit cs with
      | some (g1, g2, rest) =>
        "<a href=\"".data ++ g2 ++ "\">".data ++ g1 ++ "</a>".data ++ subLinksGo fuel rest
      | none => c :: subLinksGo fuel cs
    else c :: subLinksGo fuel cs

/-! ### `markdown_to_html` (scripts/md_to_html.py, lines 197-270) -/

/-- Title search `re.search(r'^#\s+(.+)$', html, re.MULTILINE)` (lines
202-203): the group of the first match whose start is a line start, scanned
left to right. -/
def extractTitle (md : MText) : Option MText :=
  prefSearchGo "#".data md.length true md

/-- Header substitutions (lines 206-208): `###`, then `##`, then `#`. -/
def headerStage (t : MText) : MText :=
  prefSub "#".data "<h1>".data "</h1>".data
    (prefSub "##".data "<h2>".data "</h2>".data
      (prefSub "###".data "<h3>".data "</h3>".data t))

/-- Bold and italic substitutions (lines 211-213): `***`, then `**`, then `*`. -/
def emphasisStage (t : MText) : MText :=
  subDelim "*".data "<em>".data "</em>".data
    (subDelim "**".data "<strong>".data "</strong>".data
      (subDelim "***".data "<strong><em>".data "</em></strong>".data t))

/-- Blockquote substitution (line 216). -/
def blockquoteStage (t : MText) : MText :=
  prefSub ">".data "<blockquote><p>".data "</p></blockquote>".data t

/-- Link substitution (line 219). -/
def linkStage (t : MText) : MText := subLinksGo t.length t

/-- Inline code substitution (line 222). -/
def codeStage (t : MText) : MText :=
  subDelim [backtick] "<code>".data "</code>".data t

/-- One table line's contribution in `convert_table` (lines 275-280): lines
containing `---` are skipped; otherwise `line.split('|')[1:-1]`, each cell
stripped, contributes a row when non-empty. -/
def cellsOf (l : MText) : List MText :=
  (((splitOnChar '|' l).drop 1).dropLast).map pyStrip

/-- The optional row of one table line. -/
def rowOf (l : MText) : Option (List MText) :=
  if containsSub "---".data l then none
  else if cellsOf l = [] then none
  else some (cellsOf l)

/-- Header row rendering (line 287). -/
def tableRowTh (r : List MText) : MText :=
  "  <tr>".data ++ (r.map (fun c => "<th>".data ++ c ++ "</th>".data)).flatten ++ "</tr>\n".data

/-- Body row rendering (line 290). -/
def tableRowTd (r : List MText) : MText :=
  "  <tr>".data ++ (r.map (fun c => "<td>".data ++ c ++ "</td>".data)).flatten ++ "</tr>\n".data

/-- Embeds `convert_table` (lines 272-293). -/
def convert_table (lines : List MText) : MText :=
  match lines.filterMap rowOf with
  | [] => []
  | r0 :: rs =>
    "<table>\n".data ++ tableRowTh r0 ++ (rs.map tableRowTd).flatten ++ "</table>".data

/-- Python `'|' in line`. -/
def hasBar (l : MText) : Bool := l.contains '|'

/-- The table accumulation loop (lines 230-247).  `acc` is the `table_lines`
buffer; `in_table` is `acc ≠ []` (the source sets both together).  Elements of
the result are joined with `'\n'` afterwards; a flushed table contributes the
(possibly multi-line, possibly empty) string `convert_table acc`, and the
terminating line is re-emitted only when `line.strip()` is truthy. -/
def tableGo : List MText → List MText → List MText
  | acc, [] => if acc = [] then [] else [convert_table acc]
  | acc, l :: ls =>
    if hasBar l then tableGo (acc ++ [l]) ls
    else if acc = [] then l :: tableGo [] ls
    else
      convert_table acc ::
        (if pyStrip l = [] then tableGo [] ls else l :: tableGo [] ls)

/-- Table stage (lines 224-249). -/
def tableStage (t : MText) : MText := joinLines (tableGo [] (splitLines t))

/-- Horizontal rule substitution `re.sub(r'^---+$', '<hr>', ..., re.MULTILINE)`
(line 252): a line of three or more dashes and nothing else. -/
def hrLine (l : MText) : MText :=
  if 3 ≤ l.length && l.all (fun c => c = '-') then "<hr>".data else l

/-- Horizontal rule stage. -/
def hrStage (t : MText) : MText := mapLines hrLine t

/-- List item substitution (line 255). -/
def listStage (t : MText) : MText :=
  prefSub "-".data "<li>".data "</li>".data t

/-- A line that is entirely `<li>` ++ (non-empty) ++ `</li>`: exactly the lines
on which one repetition of `(<li>.+</li>\n)` can match up to the newline. -/
def isFullLi (l : MText) : Bool :=
  startsWithL "<li>".data l && endsWithL "</li>".data l && 10 ≤ l.length

/-- Leftmost position inside a line where a repetition of `(<li>.+</li>\n)` can
start: the suffix from there must be `<li>` ++ (non-empty) ++ `</li>` (the
closing `</li>` has to sit at the end of the line so that the `\n` follows).
Returns the prefix before the match and the matching suffix. -/
def findLiSplit : MText → Option (MText × MText)
  | [] => none
  | c :: cs =>
    if isFullLi (c :: cs) then some ([], c :: cs)
    else
      match findLiSplit cs with
      | some (p, m) => some (c :: p, m)
      | none => none

/-- The `re.sub(r'(<li>.+</li>\n)+', r'<ul>\g<0></ul>', html)` step (line 258),
expressed over the line list.  Each repetition of the group consumes one whole
line plus its trailing newline, so a match is a run of `<li>…</li>` lines each
followed by a newline (in particular the run cannot include the last line of
the text); `<ul>` is inserted at the match start and `</ul>` right after the
final newline of the match, i.e. at the start of the following line, where
scanning then continues.  The boolean states whether we are inside a run. -/
def ulGo : Bool → List MText → List MText
  | _, [] => []
  | false, l :: ls =>
    if ls = [] then [l]
    else
      match findLiSplit l with
      | some (p, m) => (p ++ "<ul>".data ++ m) :: ulGo true ls
      | none => l :: ulGo false ls
  | true, l :: ls =>
    if ls = [] then ["</ul>".data ++ l]
    else if isFullLi l then l :: ulGo true ls
    else
      match findLiSplit l with
      | some (p, m) => ("</ul>".data ++ p ++ "<ul>".data ++ m) :: ulGo true ls
      | none => ("</ul>".data ++ l) :: ulGo false ls

/-- List-wrapping stage. -/
def ulStage (t : MText) : MText := joinLines (ulGo false (splitLines t))

/-- Paragraph handling of one block (lines 262-266): strip; wrap in `<p>…</p>`
when non-empty and not starting with `<` or `---`. -/
def paraBlock (b : MText) : MText :=
  let s := pyStrip b
  if s ≠ [] ∧ ¬ startsWithL "<".data s ∧ ¬ startsWithL "---".data s then
    "<p>".data ++ s ++ "</p>".data
  else s

/-- Python `text.split('\n\n')` (left-to-right, non-overlapping). -/
def splitNN : MText → List MText
  | [] => [[]]
  | '\n' :: '\n' :: rest => [] :: splitNN rest
  | c :: rest =>
    match splitNN rest with
    | [] => [[c]]
    | l :: ls => (c :: l) :: ls

/-- Paragraph stage (lines 261-268). -/
def paragraphStage (t : MText) : MText :=
  joinWith "\n\n".data ((splitNN t).map paraBlock)

/-- The transformation pipeline up to (excluding) the paragraph stage, in the
source's order. -/
def preParagraph (md : MText) : MText :=
  ulStage (listStage (hrStage (tableStage (codeStage (linkStage
    (blockquoteStage (emphasisStage (headerStage md))))))))

/-- Embeds `markdown_to_html` (lines 197-270): returns `(title, htmlBody)`. -/
def markdown_to_html (md : MText) : MText × MText :=
  ((extractTitle md).getD "AI Briefing".data,
   paragraphStage (preParagraph md))

/-! ### `generate_index` (scripts/generate_index.py) -/

/-- The index page template `HTML_TEMPLATE` of scripts/generate_index.py
(lines 12-174), split at its `{count}`, `{items}` and `{update_time}`
placeholders; `str.format` doubles literal braces in the source, which are
unescaped here (written as `\x7b`/`\x7d`). -/
def IDX_T1 : String := "<!DOCTYPE html>\n<html lang=\"zh-CN\">\n<head>\n    <meta charset=\"UTF-8\">\n    <meta http-equiv=\"Content-Type\" content=\"text/html; charset=UTF-8\">\n    <meta name=\"viewport\" content=\"width=device-width, initial-scale=1.0\">\n    <title>AI Daily Briefing - AI 动态简报</title>\n    <style>\n        @charset \"UTF-8\";\n        :root \x7b\n            --primary: #0066cc;\n            --primary-dark: #0052a3;\n            --bg: #f8f9fa;\n            --card-bg: #ffffff;\n            --text: #333333;\n            --text-secondary: #666666;\n            --border: #e1e4e8;\n            --shadow: 0 2px 8px rgba(0,0,0,0.08);\n        \x7d\n        \n        * \x7b box-sizing: border-box; \x7d\n        \n        body \x7b\n            font-family: -apple-system, BlinkMacSystemFont, \x27Segoe UI\x27, Roboto, sans-serif;\n            background: linear-gradient(135deg, #667eea 0%, #764ba2 100%);\n            min-height: 100vh;\n            margin: 0;\n            padding: 40px 20px;\n            color: var(--text);\n        \x7d\n        \n        .container \x7b\n            max-width: 900px;\n            margin: 0 auto;\n        \x7d\n        \n        .header \x7b\n            text-align: center;\n            margin-bottom: 40px;\n            color: white;\n        \x7d\n        \n        .header h1 \x7b\n            font-size: 2.5em;\n            margin: 0 0 10px 0;\n            text-shadow: 0 2px 4px rgba(0,0,0,0.2);\n        \x7d\n        \n        .header p \x7b\n            font-size: 1.1em;\n            opacity: 0.9;\n            margin: 0;\n        \x7d\n        \n        .stats-card \x7b\n            background: var(--card-bg);\n            border-radius: 16px;\n            padding: 24px;\n            margin-bottom: 30px;\n            box-shadow: var(--shadow);\n            display: flex;\n            align-items: center;\n            justify-content: center;\n            gap: 12px;\n            font-size: 1.2em;\n        \x7d\n        \n        .stats-card .emoji \x7b font-size: 1.5em; \x7d\n        .stats-card .number \x7b\n            font-weight: bold;\n            color: var(--primary);\n            font-size: 1.3em;\n        \x7d\n        \n        .briefing-list \x7b\n            background: var(--card-bg);\n            border-radius: 16px;\n            overflow: hidden;\n            box-shadow: var(--shadow);\n        \x7d\n        \n        .briefing-list h2 \x7b\n            margin: 0;\n            padding: 24px;\n            background: linear-gradient(135deg, var(--primary) 0%, var(--primary-dark) 100%);\n            color: white;\n            font-size: 1.3em;\n        \x7d\n        \n        .briefing-item \x7b\n            display: flex;\n            align-items: center;\n            padding: 18px 24px;\n            border-bottom: 1px solid var(--border);\n            transition: all 0.2s ease;\n            text-decoration: none;\n            color: var(--text);\n        \x7d\n        \n        .briefing-item:last-child \x7b border-bottom: none; \x7d\n        \n        .briefing-item:hover \x7b\n            background: #f6f8fa;\n            transform: translateX(4px);\n        \x7d\n        \n        .briefing-item .date \x7b\n            font-weight: 600;\n            color: var(--primary);\n            min-width: 110px;\n            font-size: 1.1em;\n        \x7d\n        \n        .briefing-item .arrow \x7b\n            margin-left: auto;\n            color: var(--text-secondary);\n            font-size: 1.2em;\n        \x7d\n        \n        .briefing-item:hover .arrow \x7b\n            color: var(--primary);\n        \x7d\n        \n        .footer \x7b\n            text-align: center;\n            margin-top: 40px;\n            color: rgba(255,255,255,0.7);\n            font-size: 0.9em;\n        \x7d\n        \n        @media (max-width: 600px) \x7b\n            body \x7b padding: 20px 16px; \x7d\n            .header h1 \x7b font-size: 2em; \x7d\n            .briefing-item \x7b padding: 16px 20px; \x7d\n            .briefing-item .date \x7b min-width: 90px; \x7d\n        \x7d\n    </style>\n</head>\n<body>\n    <div class=\"container\">\n        <div class=\"header\">\n            <h1>🤖 AI Daily Briefing</h1>\n            <p>每日 AI 动态简报归档</p>\n        </div>\n        \n        <div class=\"stats-card\">\n            <span class=\"emoji\">📊</span>\n            <span>共收录</span>\n            <span class=\"number\">"

def IDX_T2 : String := "</span>\n            <span>篇简报</span>\n        </div>\n        \n        <div class=\"briefing-list\">\n            <h2>📅 简报列表</h2>\n            "

def IDX_T3 : String := "\n        </div>\n        \n        <div class=\"footer\">\n            <p>最后更新: "

def IDX_T4 : String := " · 由 ai-daily-briefing skill 自动生成</p>\n        </div>\n    </div>\n</body>\n</html>"

/-- The per-entry item template of `generate_index` (lines 187-190), split at
its two `{date}` occurrences. -/
def ITEM_T1 : String := "            <a href=\""

def ITEM_T2 : String := ".html\" class=\"briefing-item\">\n                <span class=\"date\">"

def ITEM_T3 : String := "</span>\n                <span class=\"arrow\">→</span>\n            </a>\n"

/-- The `暂无简报` placeholder emitted when no items exist (line 193). -/
def IDX_PLACEHOLDER : String := "<div style=\"padding: 24px; text-align: center; color: #666;\">暂无简报</div>"

/-- Helper for `Path.stem`: the name minus its last suffix; a dot at the very start of
the name does not begin a suffix. -/
def lastDotSplit : MText → Option MText
  | [] => none
  | c :: cs =>
    match lastDotSplit cs with
    | some p => some (c :: p)
    | none => if c = '.' then some [] else none

/-- Python `Path(name).stem` for a plain file name. -/
def stem : MText → MText
  | [] => []
  | c :: cs =>
    match lastDotSplit cs with
    | some p => c :: p
    | none => c :: cs

/-- Discovery (line 181): the `*.html` entries of the directory listing except
`index.html`, sorted ascending.  `listing` stands for the unordered result of
`site_dir.glob("*.html")`; Python sorts the `Path` values, which for plain
file names in one directory is the lexicographic order on their names, i.e.
the lexicographic order on `List Char`. -/
def html_files (listing : List MText) : List MText :=
  List.insertionSort (· ≤ ·) (listing.filter (fun f => ! (f == "index.html".data)))

/-- One rendered list item (lines 187-190). -/
def briefing_item (date : MText) : MText :=
  ITEM_T1.data ++ date ++ ITEM_T2.data ++ date ++ ITEM_T3.data

/-- Item accumulation (lines 184-190): iterate over `reversed(html_files)`
("newest first") appending one item per entry. -/
def items_html (listing : List MText) : MText :=
  ((html_files listing).reverse).foldl (fun acc f => acc ++ briefing_item (stem f)) []

/-- Lines 192-193: an empty `items_html` string is replaced by the
placeholder. -/
def items_or_placeholder (listing : List MText) : MText :=
  if items_html listing = [] then IDX_PLACEHOLDER.data else items_html listing

/-- Embeds `generate_index` (lines 176-205), as the content written to `index.html`.
`update_time` is the `datetime.now().strftime("%Y-%m-%d %H:%M")` string,
passed explicitly since it is read from the clock at render time. -/
def generate_index_page (listing : List MText) (update_time : MText) : MText :=
  IDX_T1.data ++ (Nat.repr (html_files listing).length).data ++
    IDX_T2.data ++ items_or_placeholder listing ++
      IDX_T3.data ++ (update_time ++ IDX_T4.data)

/-! ### The converter CLI `main` (scripts/md_to_html.py, lines 295-314) -/

/-- The converter page template `HTML_TEMPLATE` of scripts/md_to_html.py
(lines 11-195), split at its `{title}` and `{content}` placeholders. -/
def MD_T1 : String := "<!DOCTYPE html>\n<html lang=\"zh-CN\">\n<head>\n    <meta charset=\"UTF-8\">\n    <meta http-equiv=\"Content-Type\" content=\"text/html; charset=UTF-8\">\n    <meta name=\"viewport\" content=\"width=device-width, initial-scale=1.0\">\n    <meta http-equiv=\"X-UA-Compatible\" content=\"IE=edge\">\n    <title>"

def MD_T2 : String := "</title>\n    <style>\n        @charset \"UTF-8\";\n        :root \x7b\n            --primary: #0066cc;\n            --primary-dark: #0052a3;\n            --bg: #f8f9fa;\n            --card-bg: #ffffff;\n            --text: #333333;\n            --text-secondary: #666666;\n            --border: #e1e4e8;\n            --code-bg: #f6f8fa;\n            --warning: #f59e0b;\n        \x7d\n        \n        * \x7b box-sizing: border-box; \x7d\n        \n        body \x7b\n            font-family: -apple-system, BlinkMacSystemFont, \x27Segoe UI\x27, Roboto, sans-serif;\n            background: linear-gradient(135deg, #667eea 0%, #764ba2 100%);\n            min-height: 100vh;\n            margin: 0;\n            padding: 40px 20px;\n            color: var(--text);\n            line-height: 1.7;\n        \x7d\n        \n        .container \x7b\n            max-width: 800px;\n            margin: 0 auto;\n        \x7d\n        \n        .back-link \x7b\n            display: inline-flex;\n            align-items: center;\n            gap: 8px;\n            color: rgba(255,255,255,0.9);\n            text-decoration: none;\n            margin-bottom: 24px;\n            font-size: 0.95em;\n            transition: all 0.2s;\n        \x7d\n        \n        .back-link:hover \x7b\n            color: white;\n            transform: translateX(-4px);\n        \x7d\n        \n        .content \x7b\n            background: var(--card-bg);\n            border-radius: 16px;\n            padding: 40px;\n            box-shadow: 0 4px 20px rgba(0,0,0,0.1);\n        \x7d\n        \n        h1 \x7b\n            font-size: 1.8em;\n            margin: 0 0 16px 0;\n            color: var(--primary);\n            border-bottom: 3px solid var(--primary);\n            padding-bottom: 12px;\n        \x7d\n        \n        h2 \x7b\n            font-size: 1.4em;\n            margin: 32px 0 16px 0;\n            color: var(--primary-dark);\n            display: flex;\n            align-items: center;\n            gap: 10px;\n        \x7d\n        \n        h3 \x7b\n            font-size: 1.15em;\n            margin: 24px 0 12px 0;\n            color: var(--text);\n            padding-left: 12px;\n            border-left: 4px solid var(--primary);\n        \x7d\n        \n        blockquote \x7b\n            margin: 16px 0;\n            padding: 16px 20px;\n            background: linear-gradient(135deg, #f0f7ff 0%, #e8f4ff 100%);\n            border-radius: 8px;\n            border-left: 4px solid var(--primary);\n        \x7d\n        \n        blockquote p \x7b\n            margin: 0;\n            color: var(--text-secondary);\n            font-size: 0.95em;\n        \x7d\n        \n        table \x7b\n            width: 100%;\n            border-collapse: collapse;\n            margin: 20px 0;\n            font-size: 0.95em;\n        \x7d\n        \n        th, td \x7b\n            padding: 12px 16px;\n            text-align: left;\n            border-bottom: 1px solid var(--border);\n        \x7d\n        \n        th \x7b\n            background: #f6f8fa;\n            font-weight: 600;\n            color: var(--text);\n        \x7d\n        \n        tr:hover \x7b\n            background: #f9fafb;\n        \x7d\n        \n        ul \x7b\n            padding-left: 24px;\n        \x7d\n        \n        li \x7b\n            margin: 8px 0;\n        \x7d\n        \n        a \x7b\n            color: var(--primary);\n            text-decoration: none;\n        \x7d\n        \n        a:hover \x7b\n            text-decoration: underline;\n        \x7d\n        \n        code \x7b\n            background: var(--code-bg);\n            padding: 2px 6px;\n            border-radius: 4px;\n            font-family: \x27SF Mono\x27, Monaco, monospace;\n            font-size: 0.9em;\n        \x7d\n        \n        hr \x7b\n            border: none;\n            height: 1px;\n            background: linear-gradient(90deg, transparent, var(--border), transparent);\n            margin: 32px 0;\n        \x7d\n        \n        .tag \x7b\n            display: inline-block;\n            padding: 2px 8px;\n            background: var(--primary);\n            color: white;\n            border-radius: 4px;\n            font-size: 0.85em;\n            font-weight: 500;\n        \x7d\n        \n        @media (max-width: 600px) \x7b\n            body \x7b padding: 20px 16px; \x7d\n            .content \x7b padding: 24px; \x7d\n            h1 \x7b font-size: 1.5em; \x7d\n            h2 \x7b font-size: 1.2em; \x7d\n            table \x7b font-size: 0.9em; \x7d\n            th, td \x7b padding: 10px; \x7d\n        \x7d\n    </style>\n</head>\n<body>\n    <div class=\"container\">\n        <a href=\"./index.html\" class=\"back-link\">← 返回首页</a>\n        <div class=\"content\">\n"

def MD_T3 : String := "\n        </div>\n    </div>\n</body>\n</html>"

/-- Python `HTML_TEMPLATE.format(title=title, content=content)` (line 310). -/
def html_template_fill (title content : MText) : MText :=
  MD_T1.data ++ title ++ MD_T2.data ++ content ++ MD_T3.data

/-- Association-list model of the files visible to the CLI:
`lookupFile name fs` is the content of `name` when it exists. -/
def lookupFile (name : MText) : List (MText × MText) → Option MText
  | [] => none
  | (n, c) :: rest => if n = name then some c else lookupFile name rest

/-- Overwrite (or create) a file in the filesystem model
(`output_file.write_text`). -/
def setFile (name content : MText) : List (MText × MText) → List (MText × MText)
  | [] => [(name, content)]
  | (n, c) :: rest =>
    if n = name then (n, content) :: rest else (n, c) :: setFile name content rest

/-- The converter CLI `main` (lines 295-314).  `argv` is `sys.argv` (so it
includes the program name at index 0) and `fs` the visible files; the result
is `(exit status, printed lines, resulting files)`.  `sys.exit(main())` makes
the returned value the process exit status. -/
def md_to_html_main (argv : List MText) (fs : List (MText × MText)) :
    Nat × List MText × List (MText × MText) :=
  if argv.length < 3 then
    (1, ["Usage: ./md_to_html.py input.md output.html".data], fs)
  else
    let input_file := argv.getD 1 []
    let output_file := argv.getD 2 []
    match lookupFile input_file fs with
    | none => (1, ["Error: ".data ++ input_file ++ " not found".data], fs)
    | some md_text =>
      let r := markdown_to_html md_text
      let full_html := html_template_fill r.1 r.2
      (0, ["Converted: ".data ++ input_file ++ " -> ".data ++ output_file],
       setFile output_file full_html fs)

/-! ## Helper lemmas -/

/-- While every line still contains the delimiter, the table loop only grows
its `table_lines` buffer. -/
theorem tableGo_bar_accum (run : List MText) :
    ∀ (acc ls : List MText), (∀ l ∈ run, hasBar l = true) →
      tableGo acc (run ++ ls) = tableGo (acc ++ run) ls := by
  induction run with
  | nil => intro acc ls _; simp
  | cons r rs ih =>
    intro acc ls h
    have hr : hasBar r = true := h r (by simp)
    have hstep : tableGo acc ((r :: rs) ++ ls) = tableGo (acc ++ [r]) (rs ++ ls) := by
      simp [tableGo, hr]
    rw [hstep, ih (acc ++ [r]) ls (fun l hl => h l (by simp [hl]))]
    simp

/-- Splitting on `'|'` produces one more field than there are delimiters. -/
theorem splitOnChar_length (sep : Char) (l : MText) :
    (splitOnChar sep l).length = countChar sep l + 1 := by
  induction l with
  | nil => simp [splitOnChar, countChar]
  | cons c cs ih =>
    cases hsplit : splitOnChar sep cs with
    | nil => rw [hsplit] at ih; simp at ih
    | cons a as =>
      rw [hsplit] at ih
      simp only [List.length_cons] at ih
      by_cases hc : c = sep
      · simp [splitOnChar, countChar, hc, hsplit]
        omega
      · simp [splitOnChar, countChar, hc, hsplit]
        omega

/-- Runs whose every line is skipped (`'---' in line`) or yields no cells
produce no rows. -/
theorem filterMap_rowOf_nil (run : List MText)
    (h : ∀ l ∈ run, containsSub "---".data l = true ∨ cellsOf l = []) :
    run.filterMap rowOf = [] := by
  induction run with
  | nil => simp
  | cons r rs ih =>
    have hr : rowOf r = none := by
      rcases h r (by simp) with hc | hc
      · simp [rowOf, hc]
      · simp [rowOf, hc]
    simp [hr, ih (fun l hl => h l (by simp [hl]))]

/-! ## C1 -/

/-- C1, as stated: after a maximal run of delimiter lines, the terminating
delimiter-free line would always be re-emitted right after the rendered table,
whatever its content, including a blank line.  This is false: the code only
re-emits the terminator when `line.strip()` is truthy, so a blank terminating
line is dropped (counterexample: run `["|a|b|"]` terminated by the empty
line). -/
theorem C1_counterexample :
    ¬ (∀ (run : List MText) (term : MText) (rest : List MText),
        (∀ l ∈ run, hasBar l = true) → run ≠ [] →
        hasBar term = false →
        tableGo [] (run ++ term :: rest) =
          convert_table run :: term :: tableGo [] rest) := by
  intro hall
  have h := hall ["|a|b|".data] [] [] (by decide) (by decide) (by decide)
  exact absurd h (by decide)

/-- C1 (amended): a maximal run of delimiter lines followed by a
delimiter-free line renders the table and re-emits the terminating line
immediately after it if and only if the terminator has non-blank content
(`line.strip()` truthy); a blank terminating line is dropped. -/
theorem C1_terminator (run : List MText) (term : MText) (rest : List MText)
    (hbar : ∀ l ∈ run, hasBar l = true) (hne : run ≠ [])
    (hterm : hasBar term = false) :
    tableGo [] (run ++ term :: rest) =
      convert_table run ::
        (if pyStrip term = [] then tableGo [] rest else term :: tableGo [] rest) := by
  have hacc : tableGo [] (run ++ term :: rest) = tableGo run (term :: rest) := by
    simpa using tableGo_bar_accum run [] (term :: rest) hbar
  rw [hacc]
  simp [tableGo, hterm, hne]

/-- Witness for C1: a table run terminated by a non-blank line keeps the
terminator, right after the rendered table. -/
theorem C1_terminator_witness :
    tableGo [] (["|a|b|".data] ++ "End".data :: []) =
      convert_table ["|a|b|".data] ::
        (if pyStrip "End".data = [] then tableGo [] []
         else "End".data :: tableGo [] []) :=
  C1_terminator ["|a|b|".data] "End".data [] (by decide) (by decide) (by decide)

/-! ## C2 -/

/-- C2, as stated: in a 3-line block (header, separator, data) with matching
column counts, where the separator row is composed solely of
dashes/delimiters, the output would be a table with exactly one header row and
one body row — separator detection being "composed solely of
dashes/delimiters".  This is false: the code drops every line containing
`---` as a substring, so a data row such as `|a---b|` is also dropped and
produces no body row. -/
theorem C2_counterexample :
    ¬ (∀ h s d : MText,
        hasBar h = true → hasBar s = true → hasBar d = true →
        s ≠ [] → (∀ c ∈ s, c = '-' ∨ c = '|') →
        cellsOf h ≠ [] → cellsOf d ≠ [] →
        (cellsOf h).length = (cellsOf d).length →
        convert_table [h, s, d] =
          "<table>\n".data ++ tableRowTh (cellsOf h) ++ tableRowTd (cellsOf d) ++
            "</table>".data) := by
  intro hall
  have h := hall "|h|".data "|---|".data "|a---b|".data (by decide) (by decide)
    (by decide) (by decide) (by decide) (by decide) (by decide) (by decide)
  exact absurd h (by decide)

/-- C2 (amended): a 3-line block of header row, separator row and one data
row, with matching column counts, renders as a table with exactly one header
row of header cells and exactly one body row of data cells, the separator row
producing no output row — where, within the run, exactly the lines containing
`---` as a substring are treated as the separator and dropped (so the header
and data rows must not contain `---`). -/
theorem C2_table_round_trip (h s d : MText)
    (hh : containsSub "---".data h = false) (hd : containsSub "---".data d = false)
    (hs : containsSub "---".data s = true)
    (hhc : cellsOf h ≠ []) (hdc : cellsOf d ≠ [])
    (_hlen : (cellsOf h).length = (cellsOf d).length) :
    convert_table [h, s, d] =
      "<table>\n".data ++ tableRowTh (cellsOf h) ++ tableRowTd (cellsOf d) ++
        "</table>".data := by
  simp [convert_table, rowOf, hh, hd, hs, hhc, hdc]

/-- Witness for C2 on a concrete 3-line table block. -/
theorem C2_table_round_trip_witness :
    convert_table ["| A | B |".data, "| --- | --- |".data, "| 1 | 2 |".data] =
      "<table>\n".data ++ tableRowTh (cellsOf "| A | B |".data) ++
        tableRowTd (cellsOf "| 1 | 2 |".data) ++ "</table>".data :=
  C2_table_round_trip "| A | B |".data "| --- | --- |".data "| 1 | 2 |".data
    (by decide) (by decide) (by decide) (by decide) (by decide) (by decide)

/-! ## C3 -/

/-- C3: a line with exactly one `|` yields no cells (splitting on `|` and
discarding the first and last fields leaves nothing), and a run of delimiter
lines in which every line either contains `---` or yields no cells makes
`convert_table` return the empty string; the loop then emits that empty
string in place of the run (none of the run's lines reach the output),
re-emitting the terminator exactly when it is non-blank, and an unterminated
such run at the end of the input likewise flushes to the empty string. -/
theorem C3_no_cells_empty_table :
    (∀ l : MText, countChar '|' l = 1 → cellsOf l = []) ∧
    (∀ (run : List MText) (term : MText) (rest : List MText),
      (∀ l ∈ run, hasBar l = true) → run ≠ [] →
      (∀ l ∈ run, containsSub "---".data l = true ∨ cellsOf l = []) →
      hasBar term = false →
      convert_table run = [] ∧
      tableGo [] (run ++ term :: rest) =
        [] :: (if pyStrip term = [] then tableGo [] rest
               else term :: tableGo [] rest) ∧
      tableGo [] run = [[]]) := by
  constructor
  · intro l hcount
    have hlen : (splitOnChar '|' l).length = 2 := by
      rw [splitOnChar_length, hcount]
    rcases List.length_eq_two.mp hlen with ⟨a, b, hab⟩
    simp [cellsOf, hab]
  · intro run term rest hbar hne hdrop hterm
    have hct : convert_table run = [] := by
      simp [convert_table, filterMap_rowOf_nil run hdrop]
    refine ⟨hct, ?_, ?_⟩
    · have hacc : tableGo [] (run ++ term :: rest) = tableGo run (term :: rest) := by
        simpa using tableGo_bar_accum run [] (term :: rest) hbar
      rw [hacc]
      simp [tableGo, hterm, hne, hct]
    · have hacc : tableGo [] (run ++ ([] : List MText)) = tableGo run [] := by
        simpa using tableGo_bar_accum run [] [] hbar
      have : tableGo [] run = tableGo run [] := by simpa using hacc
      rw [this]
      simp [tableGo, hne, hct]

/-- Witness for C3: the run `["x | y"]` (a prose line with one interior bar)
vanishes into an empty string, and the non-blank terminator is kept. -/
theorem C3_no_cells_empty_table_witness :
    cellsOf "x | y".data = [] ∧
    tableGo [] (["x | y".data] ++ "end".data :: []) =
      [] :: (if pyStrip "end".data = [] then tableGo [] []
             else "end".data :: tableGo [] []) :=
  ⟨C3_no_cells_empty_table.1 "x | y".data (by decide),
   ((C3_no_cells_empty_table.2 ["x | y".data] "end".data [] (by decide) (by decide)
      (by decide) (by decide)).2).1⟩

/-! ## C4 -/

/-- C4, as stated: an element produced by an earlier step (heading, list item,
blockquote) is never enclosed in a paragraph element by the paragraph-wrapping
step — i.e. a block satisfying the wrap condition never contains such an
element.  This is false: blocks are wrapped whole whenever their stripped text
does not *start* with `<` or `---`, so a heading preceded by ordinary text in
the same block is wrapped together with it (counterexample: `"text\n## Head"`
becomes `<p>text\n<h2>Head</h2></p>`). -/
theorem C4_counterexample :
    ¬ (∀ md : MText, ∀ b ∈ splitNN (preParagraph md),
        (pyStrip b ≠ [] ∧ ¬ startsWithL "<".data (pyStrip b) = true ∧
          ¬ startsWithL "---".data (pyStrip b) = true) →
        (containsSub "<h1>".data (pyStrip b) = false ∧
         containsSub "<h2>".data (pyStrip b) = false ∧
         containsSub "<h3>".data (pyStrip b) = false ∧
         containsSub "<li>".data (pyStrip b) = false ∧
         containsSub "<blockquote>".data (pyStrip b) = false)) := by
  intro hall
  have h := hall "text\n## Head".data "text\n<h2>Head</h2>".data (by decide) (by decide)
  exact absurd h (by decide)

/-- C4 (amended): the paragraph step never wraps a block whose stripped text
already starts with an element tag (`<`): such blocks pass through unchanged,
so an element standing at the start of its blank-line-delimited block is never
enclosed in a paragraph element.  (An element *preceded by plain text inside
the same block* is wrapped together with that text, as the counterexample
shows.) -/
theorem C4_block_start_not_wrapped (t b : MText) (hb : b ∈ splitNN t)
    (hlt : startsWithL "<".data (pyStrip b) = true) :
    paraBlock b = pyStrip b := by
  simp [paraBlock, hlt]

/-- Witness for C4: a heading block passes through the paragraph step
unchanged. -/
theorem C4_block_start_not_wrapped_witness :
    paraBlock "<h2>X</h2>".data = pyStrip "<h2>X</h2>".data :=
  C4_block_start_not_wrapped "<h2>X</h2>".data "<h2>X</h2>".data (by decide) (by decide)

/-! ## C5 -/

/-- C5, as stated: every maximal run of list-item elements — including a run
at the very end of the input — is wrapped in a list container, so any output
containing a list item would contain a list container.  This is false: the
wrapping pattern `(<li>.+</li>\n)+` requires a newline after each item, so a
bullet list at the very end of the input (no trailing newline) is never
wrapped (counterexample: `"- a"` converts to `<li>a</li>` with no `<ul>`). -/
theorem C5_counterexample :
    ¬ (∀ md : MText,
        containsSub "<li>".data (markdown_to_html md).2 = true →
        containsSub "<ul>".data (markdown_to_html md).2 = true) := by
  intro hall
  have h := hall "- a".data (by decide)
  exact absurd h (by decide)

/-- If a line is entirely a list item, the leftmost match starts at its
beginning. -/
theorem findLiSplit_self (l : MText) (h : isFullLi l = true) :
    findLiSplit l = some ([], l) := by
  cases l with
  | nil => simp [isFullLi, startsWithL] at h
  | cons c cs => simp [findLiSplit, h]

/-- Inside a run, full list-item lines are consumed one per line until the
first line that is not one (or the final line, which has no trailing
newline); the container is closed at the start of that line. -/
theorem ulGo_true_run (rs : List MText) :
    ∀ (term : MText) (rest : List MText), (∀ l ∈ rs, isFullLi l = true) →
      findLiSplit term = none →
      ulGo true (rs ++ term :: rest) =
        rs ++ ("</ul>".data ++ term) :: ulGo false rest := by
  induction rs with
  | nil =>
    intro term rest _ hterm
    have hfl : isFullLi term = false := by
      cases hfull : isFullLi term
      · rfl
      · rw [findLiSplit_self term hfull] at hterm; cases hterm
    cases rest with
    | nil => simp [ulGo, hterm]
    | cons r2 rest2 => simp [ulGo, hfl, hterm]
  | cons l ls ih =>
    intro term rest h hterm
    have hl : isFullLi l = true := h l (by simp)
    have hstep : ulGo true ((l :: ls) ++ term :: rest) =
        l :: ulGo true (ls ++ term :: rest) := by
      simp [ulGo, hl]
    rw [hstep, ih term rest (fun a ha => h a (by simp [ha])) hterm]
    rfl

/-- With no input left, the substitution scanners output nothing. -/
theorem prefSubGo_nil (pre tagO tagC : MText) (fuel : Nat) (atStart : Bool) :
    prefSubGo pre tagO tagC fuel atStart [] = [] := by
  cases fuel <;> rfl

/-- A successful anchored match at the start of the text, consuming all of it,
produces exactly the replacement. -/
theorem prefSubGo_match_all (pre tagO tagC : MText) (fuel : Nat) (s g : MText)
    (hm : matchPrefAt pre s = some (g, [])) (hfuel : 0 < fuel) (hs : s ≠ []) :
    prefSubGo pre tagO tagC fuel true s = tagO ++ g ++ tagC := by
  cases fuel with
  | zero => omega
  | succ f =>
    cases s with
    | nil => cases hs rfl
    | cons c cs =>
      simp [prefSubGo, hm, prefSubGo_nil]

/-- All characters being non-newline, `takeWhile` keeps everything. -/
theorem takeWhile_not_nl (x : MText) (hx : x.all (fun ch => ¬ ch = '\n') = true) :
    (x.takeWhile fun ch => ¬ ch = '\n') = x := by
  induction x with
  | nil => rfl
  | cons a as ih =>
    simp only [List.all_cons, Bool.and_eq_true] at hx
    rw [List.takeWhile_cons, if_pos (by exact hx.1), ih hx.2]

/-- All characters being non-newline, `dropWhile` drops everything. -/
theorem dropWhile_not_nl (x : MText) (hx : x.all (fun ch => ¬ ch = '\n') = true) :
    (x.dropWhile fun ch => ¬ ch = '\n') = [] := by
  induction x with
  | nil => rfl
  | cons a as ih =>
    simp only [List.all_cons, Bool.and_eq_true] at hx
    rw [List.dropWhile_cons, if_pos (by exact hx.1), ih hx.2]

/-- A newline-free bullet line `- x` (with `x` not starting in whitespace)
becomes exactly one list-item element. -/
theorem listStage_bullet (c : Char) (x : MText) (hc : pyIsSpace c = false)
    (hx : x.all (fun ch => ¬ ch = '\n') = true) :
    listStage ("- ".data ++ c :: x) = "<li>".data ++ (c :: x) ++ "</li>".data := by
  have hcn : ¬ c = '\n' := fun hEq => absurd (hEq ▸ hc) (by decide)
  have hall : (c :: x).all (fun ch => ¬ ch = '\n') = true := by
    simp only [List.all_cons, Bool.and_eq_true]
    exact ⟨by simpa using hcn, hx⟩
  have hlt : 1 < (' ' :: c :: x).length := by simp
  have hm : matchPrefAt "-".data ("- ".data ++ c :: x) = some (c :: x, []) := by
    show matchPrefAt "-".data ('-' :: ' ' :: c :: x) = some (c :: x, [])
    simp [matchPrefAt, startsWithL, countLeadingWs, hc, hlt,
      show pyIsSpace ' ' = true from by decide,
      takeWhile_not_nl (c :: x) hall, dropWhile_not_nl (c :: x) hall]
    exact ⟨hcn, by simpa using hx⟩
  show prefSub "-".data "<li>".data "</li>".data ("- ".data ++ c :: x) = _
  rw [prefSub, prefSubGo_match_all "-".data "<li>".data "</li>".data _ _ _ hm
    (by simp) (by simp)]

/-- C5 (amended): every bullet line `- x` becomes an individual list-item
element, and a maximal run of consecutive full list-item lines *each followed
by a newline* is wrapped in exactly one list container, the container closing
at the start of the line after the run; a list item on the final line of the
text (with no trailing newline) stays outside any container. -/
theorem C5_list_wrap :
    (∀ (c : Char) (x : MText), pyIsSpace c = false →
      x.all (fun ch => ¬ ch = '\n') = true →
      listStage ("- ".data ++ c :: x) = "<li>".data ++ (c :: x) ++ "</li>".data) ∧
    (∀ (r : MText) (rs : List MText) (term : MText) (rest : List MText),
      isFullLi r = true → (∀ l ∈ rs, isFullLi l = true) → findLiSplit term = none →
      ulGo false ((r :: rs) ++ term :: rest) =
        ("<ul>".data ++ r) :: (rs ++ ("</ul>".data ++ term) :: ulGo false rest)) := by
  constructor
  · exact listStage_bullet
  · intro r rs term rest hr hrs hterm
    have hsplit : findLiSplit r = some ([], r) := findLiSplit_self r hr
    have hstep : ulGo false ((r :: rs) ++ term :: rest) =
        ("<ul>".data ++ r) :: ulGo true (rs ++ term :: rest) := by
      simp [ulGo, hsplit]
    rw [hstep, ulGo_true_run rs term rest hrs hterm]

/-- Witness for C5 on the concrete list `- a`, `- b` followed by `end`. -/
theorem C5_list_wrap_witness :
    listStage ("- ".data ++ 'a' :: []) = "<li>".data ++ ('a' :: []) ++ "</li>".data ∧
    ulGo false (("<li>a</li>".data :: ["<li>b</li>".data]) ++ "end".data :: []) =
      ("<ul>".data ++ "<li>a</li>".data) ::
        (["<li>b</li>".data] ++ ("</ul>".data ++ "end".data) :: ulGo false []) :=
  ⟨C5_list_wrap.1 'a' [] (by decide) (by decide),
   C5_list_wrap.2 "<li>a</li>".data ["<li>b</li>".data] "end".data [] (by decide)
     (by decide) (by decide)⟩

/-! ## C6 -/

/-- A pattern starting with a character that differs from the head of the text
does not match there. -/
theorem startsWithL_head_ne (c0 a : Char) (d' s : MText) (h : ¬ a = c0) :
    startsWithL (c0 :: d') (a :: s) = false := by
  simp [startsWithL]
  intro hEq
  exact absurd hEq.symm h

/-- A pattern matches at the start of itself followed by anything. -/
theorem startsWithL_append_self (p r : MText) : startsWithL p (p ++ r) = true := by
  induction p with
  | nil => rfl
  | cons c cs ih => simp [startsWithL, ih]

/-- A delimiter whose first character never occurs in the text is never
substituted: the scan is the identity. -/
theorem subDelimGo_not_present (c0 : Char) (d' tagO tagC : MText) :
    ∀ (fuel : Nat) (s : MText), s.all (fun ch => ¬ ch = c0) = true →
      subDelimGo (c0 :: d') tagO tagC fuel s = s := by
  intro fuel s
  induction s generalizing fuel with
  | nil => intro _; cases fuel <;> rfl
  | cons a as ih =>
    intro h
    cases fuel with
    | zero => rfl
    | succ f =>
      simp only [List.all_cons, Bool.and_eq_true] at h
      have ha : ¬ a = c0 := by simpa using h.1
      simp [subDelimGo, startsWithL_head_ne c0 a d' as ha, ih f h.2]

/-- If the delimiter never occurs as a substring, the scan is the identity. -/
theorem subDelimGo_no_sub (d tagO tagC : MText) :
    ∀ (fuel : Nat) (s : MText), containsSub d s = false →
      subDelimGo d tagO tagC fuel s = s := by
  intro fuel s
  induction s generalizing fuel with
  | nil => intro _; cases fuel <;> rfl
  | cons a as ih =>
    intro h
    cases fuel with
    | zero => rfl
    | succ f =>
      simp only [containsSub, Bool.or_eq_false_iff] at h
      simp [subDelimGo, h.1, ih f h.2]

/-- Scanning a stretch free of the delimiter's first character cannot start a
match: substring search continues after it. -/
theorem containsSub_skip (c0 : Char) (d' : MText) :
    ∀ (a r : MText), a.all (fun ch => ¬ ch = c0) = true →
      containsSub (c0 :: d') (a ++ r) = containsSub (c0 :: d') r := by
  intro a
  induction a with
  | nil => intro r _; rfl
  | cons x xs ih =>
    intro r h
    simp only [List.all_cons, Bool.and_eq_true] at h
    have hx : ¬ x = c0 := by simpa using h.1
    simp [containsSub, startsWithL_head_ne c0 x d' (xs ++ r) hx, ih r h.2]

/-- A pattern starting with a character absent from the text never occurs. -/
theorem containsSub_head_all_ne (c0 : Char) (d' : MText) (s : MText)
    (h : s.all (fun ch => ¬ ch = c0) = true) :
    containsSub (c0 :: d') s = false := by
  have := containsSub_skip c0 d' s [] h
  simpa using this

/-- In `a ++ ** ++ t ++ ** ++ b` with `a`, `t`, `b` free of asterisks and `t`
non-empty, the runs of asterisks have length exactly two, so `***` never
occurs as a substring. -/
theorem containsSub_triple_star_false (a t b : MText)
    (ha : a.all (fun ch => ¬ ch = '*') = true)
    (ht : t.all (fun ch => ¬ ch = '*') = true) (htne : t ≠ [])
    (hb : b.all (fun ch => ¬ ch = '*') = true) :
    containsSub "***".data (a ++ "**".data ++ t ++ "**".data ++ b) = false := by
  cases t with
  | nil => cases htne rfl
  | cons th tt =>
    simp only [List.all_cons, Bool.and_eq_true] at ht
    have hth : ¬ th = '*' := by simpa using ht.1
    have step1 : containsSub "***".data (a ++ "**".data ++ (th :: tt) ++ "**".data ++ b) =
        containsSub "***".data ("**".data ++ (th :: tt) ++ "**".data ++ b) := by
      have := containsSub_skip '*' "**".data a ("**".data ++ (th :: tt) ++ "**".data ++ b) ha
      simpa [List.append_assoc] using this
    rw [step1]
    have step2 : containsSub "***".data ((th :: tt) ++ "**".data ++ b) =
        containsSub "***".data ("**".data ++ b) := by
      have hall : (th :: tt).all (fun ch => ¬ ch = '*') = true := by
        simp only [List.all_cons, Bool.and_eq_true]
        exact ⟨ht.1, ht.2⟩
      have := containsSub_skip '*' "**".data (th :: tt) ("**".data ++ b) hall
      simpa [List.append_assoc] using this
    have hbside : containsSub "***".data ("**".data ++ b) = false := by
      cases b with
      | nil => decide
      | cons bh bt =>
        simp only [List.all_cons, Bool.and_eq_true] at hb
        have hbh : ¬ bh = '*' := by simpa using hb.1
        show containsSub "***".data ('*' :: '*' :: bh :: bt) = false
        simp [containsSub, startsWithL, hbh,
          startsWithL_head_ne '*' bh "**".data bt hbh,
          containsSub_head_all_ne '*' "**".data bt hb.2]
        exact ⟨fun hEq => hbh hEq.symm, fun hEq => absurd hEq.symm hbh,
          fun hEq => absurd hEq.symm hbh⟩
    have hbody : containsSub "***".data ('*' :: '*' :: (th :: tt) ++ "**".data ++ b) = false := by
      show containsSub "***".data ('*' :: '*' :: ((th :: tt) ++ "**".data ++ b)) = false
      simp [containsSub, startsWithL, hth,
        startsWithL_head_ne '*' th "**".data (tt ++ "**".data ++ b) hth, step2, hbside]
      refine ⟨fun hEq => hth hEq.symm, fun hEq => absurd hEq.symm hth,
        fun hEq => absurd hEq.symm hth, ?_⟩
      have h' := containsSub_skip '*' ['*', '*'] tt ('*' :: '*' :: b) ht.2
      rw [h']
      exact hbside
    simpa [List.append_assoc] using hbody

/-- One step of the lazy-group search at a skippable position. -/
theorem findDelimSplit_cons_skip (d : MText) (x : Char) (r : MText)
    (hxn : ¬ x = '\n') (hsw : startsWithL d r = false) :
    findDelimSplit d (x :: r) =
      match findDelimSplit d r with
      | some (g, rr) => some (x :: g, rr)
      | none => none := by
  simp [findDelimSplit, hxn, hsw]

/-- The lazy group stops exactly at the next delimiter occurrence: on
`t ++ d ++ b` with `t` non-empty, free of the delimiter's first character and
of newlines, the split is `(t, b)`. -/
theorem findDelimSplit_exact (c0 : Char) (d' : MText) :
    ∀ (t b : MText), t ≠ [] →
      t.all (fun ch => ¬ ch = c0) = true → t.all (fun ch => ¬ ch = '\n') = true →
      findDelimSplit (c0 :: d') (t ++ ((c0 :: d') ++ b)) = some (t, b) := by
  intro t
  induction t with
  | nil => intro b h; cases h rfl
  | cons x xs ih =>
    intro b _ hstar hnl
    simp only [List.all_cons, Bool.and_eq_true] at hstar hnl
    have hxn : ¬ x = '\n' := by simpa using hnl.1
    cases xs with
    | nil =>
      have hsw : startsWithL (c0 :: d') (c0 :: (d' ++ b)) = true :=
        startsWithL_append_self (c0 :: d') b
      have hdrop : List.drop (c0 :: d').length (c0 :: (d' ++ b)) = b := by
        show List.drop d'.length (d' ++ b) = b
        exact List.drop_left d' b
      show findDelimSplit (c0 :: d') (x :: ((c0 :: d') ++ b)) = some ([x], b)
      simp [findDelimSplit, hxn, hsw, hdrop]
    | cons y ys =>
      have hy : ¬ y = c0 := by
        have := hstar.2
        simp only [List.all_cons, Bool.and_eq_true] at this
        simpa using this.1
      have hrec : findDelimSplit (c0 :: d') (y :: (ys ++ ((c0 :: d') ++ b))) =
          some (y :: ys, b) := ih b (by simp) hstar.2 hnl.2
      have hne2 : startsWithL (c0 :: d') (y :: (ys ++ ((c0 :: d') ++ b))) = false :=
        startsWithL_head_ne c0 y d' _ hy
      show findDelimSplit (c0 :: d') (x :: (y :: (ys ++ ((c0 :: d') ++ b)))) =
        some (x :: (y :: ys), b)
      rw [findDelimSplit_cons_skip (c0 :: d') x (y :: (ys ++ ((c0 :: d') ++ b))) hxn hne2,
        hrec]

/-- One step of the delimiter scan at a matching position. -/
theorem subDelimGo_cons_match (d tagO tagC : MText) (f : Nat) (x : Char) (r : MText)
    (hsw : startsWithL d (x :: r) = true) (g rest : MText)
    (hfind : findDelimSplit d ((x :: r).drop d.length) = some (g, rest)) :
    subDelimGo d tagO tagC (f + 1) (x :: r) =
      tagO ++ (g ++ (tagC ++ subDelimGo d tagO tagC f rest)) := by
  simp [subDelimGo, hsw, hfind]

/-- One step of the delimiter scan at a non-matching position. -/
theorem subDelimGo_cons_skip (d tagO tagC : MText) (f : Nat) (x : Char) (r : MText)
    (hsw : startsWithL d (x :: r) = false) :
    subDelimGo d tagO tagC (f + 1) (x :: r) = x :: subDelimGo d tagO tagC f r := by
  simp [subDelimGo, hsw]

/-- The substitution on `a ++ d ++ t ++ d ++ b` with `a`, `t`, `b` free of the
delimiter's first character and `t` newline-free and non-empty: scanning skips
`a`, matches the span lazily as exactly `t`, and leaves `b` unchanged. -/
theorem subDelimGo_match (c0 : Char) (d' tagO tagC : MText) :
    ∀ (a : MText) (fuel : Nat) (t b : MText),
      a.all (fun ch => ¬ ch = c0) = true →
      t.all (fun ch => ¬ ch = c0) = true → t.all (fun ch => ¬ ch = '\n') = true →
      t ≠ [] →
      b.all (fun ch => ¬ ch = c0) = true →
      a.length < fuel →
      subDelimGo (c0 :: d') tagO tagC fuel
          (a ++ ((c0 :: d') ++ (t ++ ((c0 :: d') ++ b)))) =
        a ++ (tagO ++ (t ++ (tagC ++ b))) := by
  intro a
  induction a with
  | nil =>
    intro fuel t b _ ht htn htne hb hfuel
    cases fuel with
    | zero => omega
    | succ f =>
      have hsw : startsWithL (c0 :: d')
          (c0 :: (d' ++ (t ++ ((c0 :: d') ++ b)))) = true :=
        startsWithL_append_self (c0 :: d') (t ++ ((c0 :: d') ++ b))
      have hfind : findDelimSplit (c0 :: d')
          ((c0 :: (d' ++ (t ++ ((c0 :: d') ++ b)))).drop (c0 :: d').length) =
          some (t, b) := by
        have hdrop : (c0 :: (d' ++ (t ++ ((c0 :: d') ++ b)))).drop (c0 :: d').length =
            t ++ ((c0 :: d') ++ b) := by
          show (d' ++ (t ++ ((c0 :: d') ++ b))).drop d'.length = t ++ ((c0 :: d') ++ b)
          exact List.drop_left d' (t ++ ((c0 :: d') ++ b))
        rw [hdrop]
        exact findDelimSplit_exact c0 d' t b htne ht htn
      show subDelimGo (c0 :: d') tagO tagC (f + 1)
        (c0 :: (d' ++ (t ++ ((c0 :: d') ++ b)))) = tagO ++ (t ++ (tagC ++ b))
      rw [subDelimGo_cons_match (c0 :: d') tagO tagC f c0 _ hsw t b hfind,
        subDelimGo_not_present c0 d' tagO tagC f b hb]
  | cons x xs ih =>
    intro fuel t b ha ht htn htne hb hfuel
    simp only [List.all_cons, Bool.and_eq_true] at ha
    have hx : ¬ x = c0 := by simpa using ha.1
    cases fuel with
    | zero => simp at hfuel
    | succ f =>
      have hf2 : xs.length < f := by
        simp only [List.length_cons] at hfuel
        omega
      have hsw : startsWithL (c0 :: d')
          (x :: (xs ++ ((c0 :: d') ++ (t ++ ((c0 :: d') ++ b))))) = false :=
        startsWithL_head_ne c0 x d' _ hx
      show subDelimGo (c0 :: d') tagO tagC (f + 1)
          (x :: (xs ++ ((c0 :: d') ++ (t ++ ((c0 :: d') ++ b))))) =
        x :: (xs ++ (tagO ++ (t ++ (tagC ++ b))))
      rw [subDelimGo_cons_skip (c0 :: d') tagO tagC f x _ hsw,
        ih f t b ha.2 ht htn htne hb hf2]

/-- C6, as stated: whenever the input contains a substring `**t**` with `t`
non-empty, the converter's output would contain `<strong>t</strong>`.  This is
false: the emphasis patterns cannot match across a newline (`.` does not match
`\n`), so for `"**a\nb**"` no bold element is produced at all — the output is
`<p>**a\nb**</p>` with all asterisks left in place. -/
theorem C6_counterexample :
    ¬ (∀ (md t : MText), t ≠ [] →
        containsSub ("**".data ++ t ++ "**".data) md = true →
        containsSub ("<strong>".data ++ t ++ "</strong>".data)
          (markdown_to_html md).2 = true) := by
  intro hall
  have h := hall "**a\nb**".data "a\nb".data (by decide) (by decide)
  exact absurd h (by decide)

/-- C6 (amended): for an occurrence `a ++ ** ++ t ++ ** ++ b` whose enclosed
text `t` is non-empty, newline-free and asterisk-free, with `a` and `b`
asterisk-free, the emphasis stage (triple-, double-, then single-asterisk
substitutions, in that order) emits a bold element wrapping exactly the
enclosed text, with no residual asterisks: the triple pass finds no `***`,
the double pass rewrites the span, and the single pass finds no asterisk
left. -/
theorem C6_bold (a t b : MText) (htne : t ≠ [])
    (ha : a.all (fun ch => ¬ ch = '*') = true)
    (ht : t.all (fun ch => ¬ ch = '*') = true)
    (htn : t.all (fun ch => ¬ ch = '\n') = true)
    (hb : b.all (fun ch => ¬ ch = '*') = true) :
    emphasisStage (a ++ "**".data ++ t ++ "**".data ++ b) =
      a ++ "<strong>".data ++ t ++ "</strong>".data ++ b := by
  have h3 : subDelim "***".data "<strong><em>".data "</em></strong>".data
      (a ++ "**".data ++ t ++ "**".data ++ b) =
      a ++ "**".data ++ t ++ "**".data ++ b :=
    subDelimGo_no_sub "***".data _ _ _ _
      (containsSub_triple_star_false a t b ha ht htne hb)
  have hlen : a.length < (a ++ "**".data ++ t ++ "**".data ++ b).length := by
    simp [List.length_append]
  have h2 : subDelim "**".data "<strong>".data "</strong>".data
      (a ++ "**".data ++ t ++ "**".data ++ b) =
      a ++ "<strong>".data ++ t ++ "</strong>".data ++ b := by
    have h := subDelimGo_match '*' ['*'] "<strong>".data "</strong>".data a
      (a ++ "**".data ++ t ++ "**".data ++ b).length t b ha ht htn htne hb hlen
    simpa [subDelim, List.append_assoc] using h
  show subDelim "*".data "<em>".data "</em>".data
      (subDelim "**".data "<strong>".data "</strong>".data
        (subDelim "***".data "<strong><em>".data "</em></strong>".data
          (a ++ "**".data ++ t ++ "**".data ++ b))) = _
  rw [h3, h2]
  apply subDelimGo_not_present
  simp [List.all_append, ha, ht, hb,
    show ("<strong>".data.all (fun ch => ¬ ch = '*')) = true from by decide,
    show ("</strong>".data.all (fun ch => ¬ ch = '*')) = true from by decide]
  exact ⟨by simpa using ha, by simpa using ht, by simpa using hb⟩

/-- Witness for C6: `x **bold** y` renders the bold span. -/
theorem C6_bold_witness :
    emphasisStage ("x ".data ++ "**".data ++ "bold".data ++ "**".data ++ " y".data) =
      "x ".data ++ "<strong>".data ++ "bold".data ++ "</strong>".data ++ " y".data :=
  C6_bold "x ".data "bold".data " y".data (by decide) (by decide) (by decide)
    (by decide) (by decide)

/-! ## C7 -/

set_option maxRecDepth 4000 in
/-- C7: for a directory holding exactly `2024-01-01.html`, `2024-01-03.html`,
`2024-01-02.html` and `index.html` (in any listing order), discovery excludes
`index.html`, sorts ascending, and the rendering order is the reverse, so the
items read `2024-01-03`, `2024-01-02`, `2024-01-01` and the count is `3`; a
directory with no matching files renders the placeholder and count `0`. -/
theorem C7_index_order :
    (∀ files : List MText,
      files.Perm ["2024-01-01.html".data, "2024-01-03.html".data,
        "2024-01-02.html".data, "index.html".data] →
      html_files files =
        ["2024-01-01.html".data, "2024-01-02.html".data, "2024-01-03.html".data] ∧
      items_html files =
        briefing_item "2024-01-03".data ++ briefing_item "2024-01-02".data ++
          briefing_item "2024-01-01".data ∧
      (html_files files).length = 3) ∧
    (items_or_placeholder ["index.html".data] = IDX_PLACEHOLDER.data ∧
     (html_files ["index.html".data]).length = 0) := by
  constructor
  · intro files hperm
    have hf : html_files files =
        ["2024-01-01.html".data, "2024-01-02.html".data, "2024-01-03.html".data] := by
      apply List.eq_of_perm_of_sorted
        ((List.perm_insertionSort _ _).trans ((hperm.filter _).trans (by decide)))
        (List.sorted_insertionSort _ _)
        (by decide)
    refine ⟨hf, ?_, by rw [hf]; rfl⟩
    show ((html_files files).reverse).foldl
      (fun acc f => acc ++ briefing_item (stem f)) [] = _
    rw [hf]
    decide
  · constructor
    · decide
    · decide

/-- Witness for C7: one concrete listing order of that directory. -/
theorem C7_index_order_witness :
    html_files ["2024-01-03.html".data, "index.html".data, "2024-01-01.html".data,
        "2024-01-02.html".data] =
      ["2024-01-01.html".data, "2024-01-02.html".data, "2024-01-03.html".data] ∧
    items_html ["2024-01-03.html".data, "index.html".data, "2024-01-01.html".data,
        "2024-01-02.html".data] =
      briefing_item "2024-01-03".data ++ briefing_item "2024-01-02".data ++
        briefing_item "2024-01-01".data ∧
    (html_files ["2024-01-03.html".data, "index.html".data, "2024-01-01.html".data,
        "2024-01-02.html".data]).length = 3 :=
  C7_index_order.1 ["2024-01-03.html".data, "index.html".data, "2024-01-01.html".data,
    "2024-01-02.html".data] (by decide)

/-! ## C8 -/

/-- C8: the converter CLI exits 1 printing the usage line when given fewer
than two file arguments (`len(sys.argv) < 3`, `argv[0]` being the program),
exits 1 printing the not-found error when the input file does not exist, and
exits 0 printing the confirmation line on success. -/
theorem C8_cli_contract :
    (∀ (argv : List MText) (fs : List (MText × MText)), argv.length < 3 →
      md_to_html_main argv fs =
        (1, ["Usage: ./md_to_html.py input.md output.html".data], fs)) ∧
    (∀ (argv : List MText) (fs : List (MText × MText)), ¬ argv.length < 3 →
      lookupFile (argv.getD 1 []) fs = none →
      md_to_html_main argv fs =
        (1, ["Error: ".data ++ argv.getD 1 [] ++ " not found".data], fs)) ∧
    (∀ (argv : List MText) (fs : List (MText × MText)) (content : MText),
      ¬ argv.length < 3 → lookupFile (argv.getD 1 []) fs = some content →
      (md_to_html_main argv fs).1 = 0 ∧
      (md_to_html_main argv fs).2.1 =
        ["Converted: ".data ++ argv.getD 1 [] ++ " -> ".data ++ argv.getD 2 []]) := by
  refine ⟨?_, ?_, ?_⟩
  · intro argv fs h
    simp only [md_to_html_main, if_pos h]
  · intro argv fs h hlook
    simp only [md_to_html_main, if_neg h]
    rw [hlook]
  · intro argv fs content h hlook
    refine ⟨?_, ?_⟩
    · simp only [md_to_html_main, if_neg h]
      rw [hlook]
    · simp only [md_to_html_main, if_neg h]
      rw [hlook]

/-- Witness for C8: all three CLI behaviours at concrete inputs. -/
theorem C8_cli_contract_witness :
    md_to_html_main ["./md_to_html.py".data] [] =
      (1, ["Usage: ./md_to_html.py input.md output.html".data], []) ∧
    md_to_html_main ["./md_to_html.py".data, "in.md".data, "out.html".data] [] =
      (1, ["Error: ".data ++ "in.md".data ++ " not found".data], []) ∧
    (md_to_html_main ["./md_to_html.py".data, "in.md".data, "out.html".data]
        [("in.md".data, "# T".data)]).1 = 0 ∧
    (md_to_html_main ["./md_to_html.py".data, "in.md".data, "out.html".data]
        [("in.md".data, "# T".data)]).2.1 =
      ["Converted: ".data ++ "in.md".data ++ " -> ".data ++ "out.html".data] :=
  ⟨C8_cli_contract.1 ["./md_to_html.py".data] [] (by decide),
   C8_cli_contract.2.1 ["./md_to_html.py".data, "in.md".data, "out.html".data] []
     (by decide) (by decide),
   (C8_cli_contract.2.2 ["./md_to_html.py".data, "in.md".data, "out.html".data]
     [("in.md".data, "# T".data)] "# T".data (by decide) (by decide)).1,
   (C8_cli_contract.2.2 ["./md_to_html.py".data, "in.md".data, "out.html".data]
     [("in.md".data, "# T".data)] "# T".data (by decide) (by decide)).2⟩

/-! ## C9 -/

/-- The fuelled title search equals the declarative leftmost match over the
line-start positions (the whole text if at a line start, then every suffix
following a newline). -/
theorem prefSearchGo_spec (pre : MText) :
    ∀ (s : MText) (fuel : Nat) (atStart : Bool), s.length ≤ fuel →
      prefSearchGo pre fuel atStart s =
        (((if atStart then s :: lineStartSuffixes s else lineStartSuffixes s).filterMap
          (fun u => matchPrefAt pre u)).head?.map Prod.fst) := by
  intro s
  induction s with
  | nil =>
    intro fuel atStart _
    have hm : matchPrefAt pre [] = none := by
      simp [matchPrefAt, countLeadingWs]
    cases fuel with
    | zero =>
      cases atStart <;> simp [prefSearchGo, lineStartSuffixes, hm]
    | succ f =>
      cases atStart <;> simp [prefSearchGo, lineStartSuffixes, hm]
  | cons c cs ih =>
    intro fuel atStart hfuel
    cases fuel with
    | zero => simp at hfuel
    | succ f =>
      have hfuel' : cs.length ≤ f := by
        simp only [List.length_cons] at hfuel
        omega
      cases atStart with
      | false =>
        by_cases hc : c = '\n'
        · subst hc
          simp [prefSearchGo, lineStartSuffixes, ih f true hfuel']
        · simp [prefSearchGo, lineStartSuffixes, hc, ih f false hfuel']
      | true =>
        cases hm : matchPrefAt pre (c :: cs) with
        | some gr =>
          simp [prefSearchGo, hm]
        | none =>
          by_cases hc : c = '\n'
          · subst hc
            simp [prefSearchGo, lineStartSuffixes, hm, ih f true hfuel']
          · simp [prefSearchGo, lineStartSuffixes, hc, hm, ih f false hfuel']

/-- C9: when no line-start position of the input matches `^#\s+(.+)$`, the
extracted title is the fixed fallback `AI Briefing`; otherwise it is the
group of the first matching position, scanned top-down. -/
theorem C9_title_extraction (md : MText) :
    ((∀ u ∈ md :: lineStartSuffixes md, matchPrefAt "#".data u = none) →
      (markdown_to_html md).1 = "AI Briefing".data) ∧
    (∀ (pre post : List MText) (u : MText) (g r : MText),
      md :: lineStartSuffixes md = pre ++ u :: post →
      (∀ v ∈ pre, matchPrefAt "#".data v = none) →
      matchPrefAt "#".data u = some (g, r) →
      (markdown_to_html md).1 = g) := by
  have hspec : (markdown_to_html md).1 =
      ((((md :: lineStartSuffixes md).filterMap
          (fun u => matchPrefAt "#".data u)).head?.map Prod.fst).getD
        "AI Briefing".data) := by
    show (extractTitle md).getD "AI Briefing".data = _
    rw [extractTitle, prefSearchGo_spec "#".data md md.length true (le_refl _)]
    simp
  constructor
  · intro hnone
    rw [hspec]
    have h0 : (md :: lineStartSuffixes md).filterMap
        (fun u => matchPrefAt "#".data u) = [] := by
      rw [List.filterMap_eq_nil]
      exact hnone
    simp [h0]
  · intro pre post u g r hsplit hpre hu
    rw [hspec, hsplit]
    have h0 : pre.filterMap (fun v => matchPrefAt "#".data v) = [] := by
      rw [List.filterMap_eq_nil]
      exact hpre
    simp [List.filterMap_append, h0, List.filterMap_cons, hu]

/-- Witness for C9: an input with no title line falls back, and an input whose
second line is `# Title` extracts `Title`. -/
theorem C9_title_extraction_witness :
    (markdown_to_html "no title here".data).1 = "AI Briefing".data ∧
    (markdown_to_html "x\n# Title\ny".data).1 = "Title".data :=
  ⟨(C9_title_extraction "no title here".data).1 (by decide),
   (C9_title_extraction "x\n# Title\ny".data).2 ["x\n# Title\ny".data] ["y".data]
     "# Title\ny".data "Title".data "\ny".data (by decide) (by decide) (by decide)⟩

/-! ## C10 -/

/-- C10, as stated: two runs of the index generation over the same directory
state would produce identical page content.  This is false: the page embeds
the render-time timestamp (`datetime.now().strftime(...)`), so two runs at
different minutes differ in the footer even with the directory unchanged. -/
theorem C10_counterexample :
    ¬ (∀ (listing : List MText) (t1 t2 : MText),
        generate_index_page listing t1 = generate_index_page listing t2) := by
  intro hall
  have h := hall [] "2024-01-01 10:00".data "2024-01-01 10:01".data
  simp only [generate_index_page] at h
  have h2 := List.append_cancel_left h
  have h3 := List.append_cancel_right h2
  exact absurd h3 (by decide)

/-- C10 (amended): the index builder is a pure function of the directory
state and the render timestamp: for a fixed listing, two runs produce
identical page content exactly when their rendered timestamps coincide — all
other page content is determined by the listing alone. -/
theorem C10_determinism (listing : List MText) (t1 t2 : MText) :
    generate_index_page listing t1 = generate_index_page listing t2 ↔ t1 = t2 := by
  constructor
  · intro h
    simp only [generate_index_page] at h
    exact List.append_cancel_right (List.append_cancel_left h)
  · intro h
    rw [h]
